import Mathlib

/-!
Verification of the `coins` repository's server-list reconciliation and
protocol-filtering pipeline (`utils/generate_app_configs.py`) and of the
seed-node validator (`utils/validate_seed_nodes.py`), as a shallow embedding
in Lean.

Python dicts are modelled as association lists kept in insertion order
(Python dicts preserve insertion order), JSON records as structures over the
fields the modelled functions actually read, and Python exceptions
(`KeyError`) as `Option`/`none` results.  In the pipeline every electrum
entry produced by `CoinConfig.get_electrums` carries both a `url` and a
`protocol` key (the code sets `protocol` on every entry before copying it),
so downstream electrum entries are modelled with total `url` and `protocol`
fields; keys that may genuinely be absent (`ws_url`, `komodo_proxy`) are
modelled as `Option` fields.
-/

namespace Coins

/-- A reconciled electrum server entry as produced by
`CoinConfig.get_electrums`: a `url` and `protocol` are always present;
`ws_url` and `komodo_proxy` may be absent. -/
structure Electrum where
  url : String
  protocol : String
  ws_url : Option String
  komodo_proxy : Option Bool
deriving DecidableEq, BEq, Repr

/-- The text of `s` before the first occurrence of `c` (all of `s` when `c`
does not occur), computed on the character list so that it reduces in the
kernel. -/
def strBefore (s : String) (c : Char) : String :=
  ⟨s.data.takeWhile (fun a => a != c)⟩

/-- Kernel-reducible `String.startsWith`. -/
def strStarts (s pre : String) : Bool :=
  pre.data.isPrefixOf s.data

/-- The text of a URL before the first colon, i.e. Python
`i["url"].split(":")[0]`, used as the "domain" by
`filter_duplicate_domains`. -/
def domainOf (e : Electrum) : String :=
  strBefore e.url ':'

/-- Update a protocol-to-url dict (inner dict of `domains` in
`filter_duplicate_domains`): Python `domains[domain].update({proto: url})`. -/
def updInner (l : List (String × String)) (proto url : String) :
    List (String × String) :=
  if l.any (fun q => q.1 == proto) then
    l.map (fun q => if q.1 == proto then (q.1, url) else q)
  else
    l ++ [(proto, url)]

/-- The `domains` dict built by the first loop of
`filter_duplicate_domains`: domain to (protocol to url), in insertion
order. -/
def buildDomains (es : List Electrum) : List (String × List (String × String)) :=
  es.foldl
    (fun ds i =>
      let d := domainOf i
      if ds.any (fun p => p.1 == d) then
        ds.map (fun p => if p.1 == d then (p.1, updInner p.2 i.protocol i.url) else p)
      else
        ds ++ [(d, [(i.protocol, i.url)])])
    []

/-- One pass of Python `for e in electrums: if e["url"].startswith(i) and
e["protocol"] == "TCP": electrums.remove(e)`, with Python's
remove-while-iterating semantics made explicit: `k` is the index the list
iterator will fetch next; each step fetches `l[k]`, advances to `k + 1`, and
possibly removes the first occurrence of the fetched element, shifting later
elements left (so the element that moved into index `k` is skipped).  The
loop stops when `k` reaches the current length.  Each step decreases
`l.length - k` by one (advance) or two (advance plus removal), so a fuel of
the initial `l.length - k` always suffices; the fuel argument only makes the
recursion structural. -/
def removeTcpLoop (domain : String) : Nat → Nat → List Electrum → List Electrum
  | 0, _, l => l
  | fuel + 1, k, l =>
    if h : k < l.length then
      let e := l.get ⟨k, h⟩
      let l' := if strStarts e.url domain && e.protocol == "TCP" then l.erase e else l
      removeTcpLoop domain fuel (k + 1) l'
    else l

/-- The removal pass over `electrums` for one duplicated domain, started the
way Python starts its `for` loop: next index 0, fuel = current length. -/
def removeTcpPass (domain : String) (l : List Electrum) : List Electrum :=
  removeTcpLoop domain l.length 0 l

/-- `filter_duplicate_domains` (generate_app_configs.py lines 608-621):
build the `domains` dict, then for every domain holding both an `SSL` and a
`TCP` entry run the in-place removal loop over the (already mutated) list. -/
def filter_duplicate_domains (es : List Electrum) : List Electrum :=
  let ds := buildDomains es
  ds.foldl
    (fun cur p =>
      if (p.2.any (fun q => q.1 == "SSL")) && (p.2.any (fun q => q.1 == "TCP")) then
        removeTcpPass p.1 cur
      else cur)
    es

/-- The property claimed by the spec for the dedup result: some domain still
carries both an `SSL`-tagged and a `TCP`-tagged entry. -/
def hasBothSslTcp (l : List Electrum) : Bool :=
  l.any (fun a => l.any (fun b =>
    domainOf a == domainOf b && a.protocol == "SSL" && b.protocol == "TCP"))

/-- One SSL and two TCP entries, all on domain `x.com`. -/
def dupDomainList : List Electrum :=
  [⟨"x.com:1", "SSL", none, none⟩,
   ⟨"x.com:2", "TCP", none, none⟩,
   ⟨"x.com:3", "TCP", none, none⟩]

/-- The spec scenario list for C5, verbatim: scheme-prefixed URLs. -/
def schemeUrlList : List Electrum :=
  [⟨"ssl://x.com:50002", "SSL", none, none⟩,
   ⟨"tcp://x.com:50001", "TCP", none, none⟩]

/-- The C5 scenario with the URLs in the host:port form the repository's
electrum files actually use (no scheme prefix). -/
def plainUrlList : List Electrum :=
  [⟨"x.com:50002", "SSL", none, none⟩,
   ⟨"x.com:50001", "TCP", none, none⟩]

/-- An RPC node entry (`nodes` / `rpc_urls` lists): a `url`, an optional
`ws_url` and an optional `komodo_proxy` flag. -/
structure Node where
  url : String
  ws_url : Option String
  komodo_proxy : Option Bool
deriving DecidableEq, BEq, Repr

/-- A per-coin configuration record, restricted to the server-list fields
that `parse_coins_repo`'s nodata scan and the three protocol filters read
and write (`electrum`, `nodes`, `light_wallet_d_servers`, `rpc_urls`); an
`Option` value of `none` models the key being absent from the coin's dict.
All other fields of the coin dict are never touched by these functions and
pass through unchanged, so they are elided. -/
structure CoinRecord where
  electrum : Option (List Electrum)
  nodes : Option (List Node)
  light_wallet_d_servers : Option (List String)
  rpc_urls : Option (List Node)
deriving DecidableEq, BEq, Repr

/-- A coins-config map: ticker to record, in insertion order. -/
abbrev CoinsMap := List (String × CoinRecord)

/-- Per-coin body of `filter_ssl` (lines 566-590).  Returns `none` for a
`KeyError` crash (the coin was deleted from `coins_config_ssl` and the code
then assigns to `coins_config_ssl[coin]["nodes"]` or `...["light_wallet_d_servers"]`),
`some none` when the coin is deleted, and `some (some r)` when it is kept as
`r`.  Note the deletion test `len(coins_config_ssl[coin]["electrum"]) == 0`
reads the list BEFORE the SSL-filtered list is assigned, i.e. the coin is
deleted only when its original electrum list is empty. -/
def filterSslCoin (r : CoinRecord) : Option (Option CoinRecord) :=
  let afterElectrum : Option CoinRecord :=
    match r.electrum with
    | none => some r
    | some es =>
      if es.isEmpty then none
      else
        some { r with
          electrum := some (filter_duplicate_domains
            (es.filter (fun i => i.protocol == "SSL"))) }
  match afterElectrum with
  | none =>
    match r.nodes, r.light_wallet_d_servers with
    | none, none => some none
    | _, _ => none
  | some r1 =>
    let r2 :=
      match r.nodes with
      | none => r1
      | some ns => { r1 with nodes := some (ns.filter (fun i => strStarts i.url "https")) }
    let r3 :=
      match r.light_wallet_d_servers with
      | none => r2
      | some ls =>
        { r2 with light_wallet_d_servers := some (ls.filter (fun s => strStarts s "https")) }
    some (some r3)

/-- `filter_ssl` (lines 564-594): keep the input's coin order, apply
`filterSslCoin` to each record; `none` models a `KeyError` abort.  The
side-effecting JSON dump is elided; the returned map is modelled. -/
def filter_ssl (cfg : CoinsMap) : Option CoinsMap :=
  cfg.foldlM
    (fun acc p =>
      (filterSslCoin p.2).map
        (fun o =>
          match o with
          | none => acc
          | some r => acc ++ [(p.1, r)]))
    []

/-- `item_exists` (lines 597-605): an entry `i` already occurs in
`electrums` when some entry shares its `url`, or both carry a `ws_url` and
these are equal.  (In the model `url` is always present.) -/
def item_exists (i : Electrum) (electrums : List Electrum) : Bool :=
  electrums.any (fun e =>
    i.url == e.url ||
      (match e.ws_url, i.ws_url with
       | some ew, some iw => iw == ew
       | _, _ => false))

/-- The append loop of `filter_tcp` over the canonical electrum list,
starting from the accumulator `cur` (which aliases the SSL view's list when
that was non-empty): skip `komodo_proxy == True` entries, then append any
entry not already present (`item_exists`) whose protocol is not `WSS`. -/
def tcpAppendLoop (es : List Electrum) (cur : List Electrum) : List Electrum :=
  es.foldl
    (fun c i =>
      if i.komodo_proxy == some true then c
      else if item_exists i c then c
      else if i.protocol != "WSS" then c ++ [i]
      else c)
    cur

/-- Replace the electrum list of `coin` inside a map (models the in-place
mutation of the list object shared with the SSL view). -/
def setElectrum (m : CoinsMap) (coin : String) (l : List Electrum) : CoinsMap :=
  m.map (fun p => if p.1 == coin then (p.1, { p.2 with electrum := some l }) else p)

/-- `filter_tcp` (lines 626-661), with the Python aliasing made explicit:
when the SSL view has a non-empty electrum list for a coin, that very list
object becomes the accumulator `electrums`, so the appends of the loop and
the in-place removals of `filter_duplicate_domains` mutate the SSL view.
The function therefore returns both the TCP view and the post-call state of
`coins_config_ssl`.  `none` models the `KeyError` raised by
`coins_config_ssl[coin]["electrum"]` when the SSL entry lacks the key.  As
in `filter_ssl`, the deletion test reads the coin's original electrum list,
and modelled entries always carry a `protocol` key. -/
def filter_tcp (cfg : CoinsMap) (ssl : CoinsMap) : Option (CoinsMap × CoinsMap) :=
  cfg.foldlM
    (fun st p =>
      let tcpAcc := st.1
      let sslSt := st.2
      let coin := p.1
      let rec0 := p.2
      let recT :=
        match rec0.nodes with
        | none => rec0
        | some ns => { rec0 with nodes := some (ns.filter (fun i => i.komodo_proxy == none)) }
      match rec0.electrum with
      | none => some (tcpAcc ++ [(coin, recT)], sslSt)
      | some es =>
        let seedInfo : Option (Bool × List Electrum) :=
          match sslSt.find? (fun q => q.1 == coin) with
          | none => some (false, [])
          | some q =>
            match q.2.electrum with
            | none => none
            | some l => if l.length > 0 then some (true, l) else some (false, [])
        seedInfo.map
          (fun si =>
            let cur := tcpAppendLoop es si.2
            if es.isEmpty then (tcpAcc, sslSt)
            else
              let cur2 := filter_duplicate_domains cur
              let sslSt' := if si.1 then setElectrum sslSt coin cur2 else sslSt
              (tcpAcc ++ [(coin, { recT with electrum := some cur2 })], sslSt')))
    ([], ssl)

/-- Character-list comparison by code point, matching Python's string
ordering (used by `sorted(...)` / `sort_dicts_list`). -/
def charListLt : List Char → List Char → Bool
  | [], [] => false
  | [], _ :: _ => true
  | _ :: _, [] => false
  | a :: as, b :: bs =>
    if a.toNat < b.toNat then true
    else if b.toNat < a.toNat then false
    else charListLt as bs

/-- Kernel-reducible strict string order by code points. -/
def strLt (a b : String) : Bool :=
  charListLt a.data b.data

/-- Stable insertion of an electrum entry into a url-sorted list: the new
entry goes after existing entries with an equal or smaller url. -/
def insertByUrl (e : Electrum) : List Electrum → List Electrum
  | [] => [e]
  | x :: xs => if strLt e.url x.url then e :: x :: xs else x :: insertByUrl e xs

/-- `sort_dicts_list(data, "url")` (line 736): Python's `sorted` is a stable
sort by the given key; a stable insertion sort by `url` produces the same
list. -/
def sort_dicts_list (l : List Electrum) : List Electrum :=
  l.foldl (fun acc e => insertByUrl e acc) []

/-- A statically configured electrum server entry as read from an
`electrums/<COIN>` file: both the plain `url` and the websocket `ws_url` may
be absent; a `komodo_proxy` flag is carried through to the output.  The
`protocol` key is overwritten by `get_electrums` before every use, so it is
not an input field. -/
structure StaticElectrum where
  url : Option String
  ws_url : Option String
  komodo_proxy : Option Bool
deriving DecidableEq, BEq, Repr

/-- One coin's slice of the liveness scan report: for each transport tag the
observed endpoint URLs with their `last_connection` timestamps, in dict
order. -/
structure ScanCoin where
  tcp : List (String × Int)
  ssl : List (String × Int)
  wss : List (String × Int)
deriving DecidableEq, BEq, Repr

/-- The two match branches of `get_electrums`'s inner loop for one observed
endpoint `k` under transport `tag` against one static entry (lines 410-424):
the plain branch appends a copy tagged `tag` with `ws_url` dropped when the
static `url` equals `k`; the websocket branch appends a copy tagged `WSS`
with `url` overwritten by `k` and `ws_url` dropped when the static `ws_url`
equals `k`.  Both branches can fire for the same static entry. -/
def matchStatic (tag k : String) (s : StaticElectrum) : List Electrum :=
  let b1 : List Electrum :=
    match s.url with
    | some u => if u == k then [⟨u, tag, none, s.komodo_proxy⟩] else []
    | none => []
  let b2 : List Electrum :=
    match s.ws_url with
    | some w => if w == k then [⟨k, "WSS", none, s.komodo_proxy⟩] else []
    | none => []
  b1 ++ b2

/-- One transport tag's pass of `get_electrums`: every observed endpoint
whose `last_connection` is within the 604800-second (one week) grace period
of the run time is matched against every static entry. -/
def tagPass (currentTime : Int) (tag : String) (entries : List (String × Int))
    (statics : List StaticElectrum) : List Electrum :=
  entries.flatMap (fun kv =>
    if currentTime - kv.2 < 604800 then statics.flatMap (matchStatic tag kv.1) else [])

/-- The server-list reconciliation core of `CoinConfig.get_electrums`
(lines 402-427) for a coin present in the scan report: collect the fresh
matches for the tags `tcp`, `ssl`, `wss` in that fixed order (protocols
upper-cased) and sort the non-empty result by `url`. -/
def get_electrums (currentTime : Int) (rep : ScanCoin)
    (statics : List StaticElectrum) : List Electrum :=
  let valid :=
    tagPass currentTime "TCP" rep.tcp statics ++
    tagPass currentTime "SSL" rep.ssl statics ++
    tagPass currentTime "WSS" rep.wss statics
  if valid.length > 0 then sort_dicts_list valid else valid

/-- Python truthiness test of `coins_config[coin][field]` for a server-list
field: the key is present and its list is empty. -/
def fieldEmpty {α : Type} (o : Option (List α)) : Bool :=
  match o with
  | some l => l.isEmpty
  | none => false

/-- The contributions of one coin to the `nodata` list in `parse_coins_repo`
(lines 525-539): one occurrence per present-but-empty field, scanned in the
source's order `nodes`, `electrum`, `light_wallet_d_servers`, `rpc_urls`,
plus one occurrence when `nodes`, `electrum` and `rpc_urls` are all
absent. -/
def coinNoData (coin : String) (r : CoinRecord) : List String :=
  (if fieldEmpty r.nodes then [coin] else []) ++
  (if fieldEmpty r.electrum then [coin] else []) ++
  (if fieldEmpty r.light_wallet_d_servers then [coin] else []) ++
  (if fieldEmpty r.rpc_urls then [coin] else []) ++
  (if r.nodes.isNone && r.electrum.isNone && r.rpc_urls.isNone then [coin] else [])

/-- The full `nodata` exclusion list of `parse_coins_repo`: coin
contributions concatenated in map order. -/
def nodataOf (cfg : CoinsMap) : List String :=
  cfg.flatMap (fun p => coinNoData p.1 p.2)

/-- The `__main__` deletion loop `for coin in nodata: del coins_config[coin]`
(lines 1097-1098); `del` on a missing key raises `KeyError`, modelled as
`none` (which happens exactly when a coin occurs twice in `nodata`). -/
def del_coins : CoinsMap → List String → Option CoinsMap
  | cfg, [] => some cfg
  | cfg, c :: rest =>
    if cfg.any (fun p => p.1 == c) then
      del_coins (cfg.filter (fun p => p.1 != c)) rest
    else none

/-- The claim's "zero fresh liveness matches" condition on a record: one of
the four server-list fields is present but empty, or all four are absent. -/
def zeroFreshMatches (r : CoinRecord) : Bool :=
  fieldEmpty r.electrum || fieldEmpty r.nodes || fieldEmpty r.light_wallet_d_servers ||
    fieldEmpty r.rpc_urls ||
    (r.electrum.isNone && r.nodes.isNone && r.light_wallet_d_servers.isNone &&
      r.rpc_urls.isNone)

end Coins

namespace Seed

/-- The shared port computation of `wss_port` and `tcp_port`
(validate_seed_nodes.py lines 42-45 and 58-61): both functions derive the
same `other_ports` base from the netid before adding their offset.
`Int.fdiv`/`Int.fmod` are Python's floor `//` and `%`. -/
def other_ports (netid lp_rpcport : Int) : Int :=
  if netid = 0 then lp_rpcport
  else Int.fdiv netid 10 * 40 + lp_rpcport + Int.fmod netid 10

/-- `wss_port` (lines 34-47): `none` models the `ValueError` raised when the
netid is outside `0 .. (65535 - 40 - lp_rpcport) // 4`. -/
def wss_port (netid lp_rpcport : Int) : Option Int :=
  if 0 ≤ netid ∧ netid ≤ Int.fdiv (65535 - 40 - lp_rpcport) 4 then
    some (other_ports netid lp_rpcport + 30)
  else none

/-- `tcp_port` (lines 50-63): identical to `wss_port` except for the final
offset of 20. -/
def tcp_port (netid lp_rpcport : Int) : Option Int :=
  if 0 ≤ netid ∧ netid ≤ Int.fdiv (65535 - 40 - lp_rpcport) 4 then
    some (other_ports netid lp_rpcport + 20)
  else none

/-- A seed-node registry entry, restricted to the fields
`validate_seed_nodes` reads; `none` models an absent key. -/
structure SeedNode where
  name : Option String
  host : Option String
  wss : Option Bool
  netid : Option Int
deriving DecidableEq, BEq, Repr

/-- Python `[node.get(key) for node in seed_nodes if node.get(key)]`: the
truthy (present and non-empty) values of a string field, in node order. -/
def truthyVals (get : SeedNode → Option String) (nodes : List SeedNode) : List String :=
  nodes.filterMap (fun n =>
    match get n with
    | some s => if s == "" then none else some s
    | none => none)

/-- Stable insertion into a sorted string list. -/
def insertStr (s : String) : List String → List String
  | [] => [s]
  | x :: xs => if Coins.strLt s x then s :: x :: xs else x :: insertStr s xs

/-- Insertion sort for strings, modelling Python `sorted(...)` on a set of
strings (code-point order). -/
def sortStrings (l : List String) : List String :=
  l.foldl (fun acc s => insertStr s acc) []

/-- The `sorted(duplicate_...)` set built by `check_duplicates`'s seen-loop:
the distinct values occurring at least twice, sorted. -/
def dupSorted (l : List String) : List String :=
  sortStrings ((l.filter (fun x => decide (2 ≤ l.count x))).dedup)

/-- `check_duplicates` (lines 87-117): one error message per category
(names, hosts) whose duplicate set is non-empty. -/
def check_duplicates (nodes : List SeedNode) : List String :=
  let dn := dupSorted (truthyVals (fun n => n.name) nodes)
  let e1 :=
    if dn.isEmpty then []
    else ["Duplicate seed node names found: " ++ String.intercalate ", " dn]
  let dh := dupSorted (truthyVals (fun n => n.host) nodes)
  let e2 :=
    if dh.isEmpty then []
    else ["Duplicate seed node hosts found: " ++ String.intercalate ", " dh]
  e1 ++ e2

/-- The decision logic of `validate_seed_nodes` after schema validation
succeeds (lines 389-420): a non-empty duplicate-error list returns `False`
immediately; only otherwise are the WSS and TCP connectivity checks run,
and the result is their conjunction.  The two network probes are opaque
oracles, so that returning `False` without consulting them is expressible. -/
def validate_seed_nodes_after_schema (nodes : List SeedNode)
    (wssProbe tcpProbe : List SeedNode → Bool) : Bool :=
  if (check_duplicates nodes).isEmpty then wssProbe nodes && tcpProbe nodes
  else false

/-- A constant-true connectivity oracle, used to witness that duplicates
force failure no matter what the probes would report. -/
def probeTrue : List SeedNode → Bool := fun _ => true

end Seed


namespace Coins

/-- The canonical (post-nodata) map of the C1 counterexample: one coin `A`
whose reconciled electrum list holds one SSL entry on `a.com` and one TCP
entry on `b.com`. -/
def cfgA : CoinsMap :=
  [("A", ⟨some [⟨"a.com:1", "SSL", none, none⟩, ⟨"b.com:2", "TCP", none, none⟩],
    none, none, none⟩)]

/-- The SSL view `filter_ssl` produces for `cfgA`. -/
def sslViewA : CoinsMap :=
  [("A", ⟨some [⟨"a.com:1", "SSL", none, none⟩], none, none, none⟩)]

/-- The state of the SSL view after `filter_tcp cfgA sslViewA` returns: the
TCP entry has been appended into its electrum list. -/
def sslViewAMut : CoinsMap :=
  [("A", ⟨some [⟨"a.com:1", "SSL", none, none⟩, ⟨"b.com:2", "TCP", none, none⟩],
    none, none, none⟩)]

/-- The C2 counterexample map: one coin whose electrum list is non-empty but
holds no SSL-tagged entry. -/
def cfgTcpOnly : CoinsMap :=
  [("TCOIN", ⟨some [⟨"t.com:1", "TCP", none, none⟩], none, none, none⟩)]

/-- A record with an electrum key holding an empty list (zero fresh
liveness matches). -/
def recNoData : CoinRecord := ⟨some [], none, none, none⟩

/-- A record with one fresh electrum server. -/
def recOk : CoinRecord := ⟨some [⟨"a.com:1", "SSL", none, none⟩], none, none, none⟩

/-- The C7 witness map: a no-data coin followed by a healthy coin. -/
def cfgNoData : CoinsMap := [("NOD", recNoData), ("OK", recOk)]

end Coins

namespace Seed

/-- A registry with two nodes sharing the name `alpha` (hosts distinct). -/
def dupNodes : List SeedNode :=
  [⟨some "alpha", some "h1", none, none⟩, ⟨some "alpha", some "h2", none, none⟩]

end Seed

namespace Coins

/-- Claim C1 (code_bug evaluation): `filter_tcp` does mutate the
`coins_config_ssl` map passed to it.  On the pipeline inputs built from
`cfgA` — the SSL view is exactly `filter_ssl cfgA` — the TCP pass seeds its
accumulator with the SSL view's electrum list object and appends the `b.com`
TCP entry into it, so after the call the SSL view's list for coin `A` has
gained an entry and differs from what `filter_ssl` returned. -/
theorem filter_tcp_mutates_ssl_view :
    filter_ssl cfgA = some sslViewA ∧
    (filter_tcp cfgA sslViewA).map Prod.snd = some sslViewAMut ∧
    sslViewAMut ≠ sslViewA := by decide

/-- Claim C2 (code_bug evaluation): a coin whose electrum list has entries
but none tagged SSL is NOT dropped by `filter_ssl`; because the deletion
test reads the pre-filter list, the coin is retained with an empty electrum
list.  The first conjunct shows the claim's antecedent holds (the SSL-tagged
sublist is empty); the second shows the coin survives in the returned map
with `electrum = []`. -/
theorem filter_ssl_retains_tcp_only_coin :
    ([⟨"t.com:1", "TCP", none, none⟩] : List Electrum).filter
        (fun i => i.protocol == "SSL") = [] ∧
    filter_ssl cfgTcpOnly = some [("TCOIN", ⟨some [], none, none, none⟩)] := by decide

/-- Claim C3 (code_bug evaluation): on a list with one SSL and two TCP
entries for domain `x.com`, `filter_duplicate_domains` removes only the
first TCP entry — removing while iterating skips the element that shifts
into the freed slot — so the result still holds both an SSL and a TCP entry
for `x.com`, violating the claimed postcondition. -/
theorem dedup_leaves_ssl_tcp_domain :
    filter_duplicate_domains dupDomainList =
      [⟨"x.com:1", "SSL", none, none⟩, ⟨"x.com:3", "TCP", none, none⟩] ∧
    hasBothSslTcp (filter_duplicate_domains dupDomainList) = true := by decide

/-- Claim C4 (code_bug evaluation): `filter_duplicate_domains` is not
idempotent.  On `dupDomainList` the first application leaves a surviving
TCP entry for the duplicated domain (iteration-skip), and the second
application removes it, so applying the function twice differs from
applying it once. -/
theorem dedup_not_idempotent :
    filter_duplicate_domains (filter_duplicate_domains dupDomainList) ≠
      filter_duplicate_domains dupDomainList := by decide

/-- Claim C5 counterexample: on the spec's literal scenario list — URLs
`ssl://x.com:50002` and `tcp://x.com:50001` — the computed domains (text
before the first colon) are `ssl` and `tcp`, which differ, so no domain has
both protocols and `filter_duplicate_domains` removes nothing; in
particular the TCP entry is NOT removed. -/
theorem dedup_scheme_urls_untouched :
    filter_duplicate_domains schemeUrlList = schemeUrlList ∧
    schemeUrlList.map domainOf = ["ssl", "tcp"] := by decide

/-- Claim C5 amended: with the URLs in the host:port form the repository's
electrum lists actually use (`x.com:50002` SSL, `x.com:50001` TCP), both
entries share domain `x.com`, and dedup removes the TCP entry and retains
the SSL entry. -/
theorem dedup_plain_urls_scenario :
    filter_duplicate_domains plainUrlList = [⟨"x.com:50002", "SSL", none, none⟩] := by
  decide

/-- Claim C6: the BTC reconciliation scenario.  First conjunct: with static
servers `[{url: a.example:50001}, {ws_url: b.example:443}]` and a report
where `a.example:50001` is fresh under `tcp` and `b.example:443` fresh under
`wss` (timestamps within the 604800-second window of the run time),
`get_electrums` yields exactly `{url: a.example:50001, protocol: TCP}` and
`{url: b.example:443, protocol: WSS}`, with `ws_url` gone (`none`) and the
list sorted by url.  Second conjunct: a single static entry carrying both a
`url` and a `ws_url` that are independently fresh yields two output
entries, its plain and websocket variants. -/
theorem get_electrums_btc_scenario :
    get_electrums 604800 ⟨[("a.example:50001", 1)], [], [("b.example:443", 1)]⟩
        [⟨some "a.example:50001", none, none⟩, ⟨none, some "b.example:443", none⟩] =
      [⟨"a.example:50001", "TCP", none, none⟩, ⟨"b.example:443", "WSS", none, none⟩] ∧
    get_electrums 604800 ⟨[("a.example:50001", 1)], [], [("b.example:443", 1)]⟩
        [⟨some "a.example:50001", some "b.example:443", none⟩] =
      [⟨"a.example:50001", "TCP", none, none⟩, ⟨"b.example:443", "WSS", none, none⟩] := by
  decide

/-- Entries of a successful `del_coins` result come from the input map. -/
theorem del_coins_mem (nd : List String) :
    ∀ (cfg m : CoinsMap), del_coins cfg nd = some m → ∀ p, p ∈ m → p ∈ cfg := by
  induction nd with
  | nil =>
    intro cfg m h p hp
    simp only [del_coins] at h
    cases h
    exact hp
  | cons c rest ih =>
    intro cfg m h p hp
    simp only [del_coins] at h
    split at h
    · exact List.mem_of_mem_filter (ih _ _ h p hp)
    · cases h

/-- A key that occurs in the deletion list is absent from any successful
`del_coins` result. -/
theorem del_coins_removed (nd : List String) :
    ∀ (cfg m : CoinsMap) (c : String), c ∈ nd → del_coins cfg nd = some m →
      ∀ p, p ∈ m → p.1 ≠ c := by
  induction nd with
  | nil =>
    intro cfg m c hc
    cases hc
  | cons a rest ih =>
    intro cfg m c hc h p hp
    simp only [del_coins] at h
    split at h
    · rcases List.mem_cons.mp hc with rfl | hc'
      · have hpf : p ∈ cfg.filter (fun q => q.1 != c) := del_coins_mem rest _ _ h p hp
        have := List.of_mem_filter hpf
        simpa using this
      · exact ih _ _ c hc' h p hp
    · cases h

/-- Claim C7: every coin of the unfiltered map whose record has zero fresh
liveness matches — a present-but-empty `electrum` / `nodes` /
`light_wallet_d_servers` / `rpc_urls` field, or none of these fields at
all — is collected into `parse_coins_repo`'s nodata list, and whenever the
`__main__` deletion loop over that list completes, the coin is absent from
the resulting canonical map. -/
theorem nodata_coin_excluded (cfg : CoinsMap) (coin : String) (r : CoinRecord)
    (hmem : (coin, r) ∈ cfg) (hz : zeroFreshMatches r = true) :
    coin ∈ nodataOf cfg ∧
      ∀ m : CoinsMap, del_coins cfg (nodataOf cfg) = some m →
        coin ∉ m.map Prod.fst := by
  have hc : coin ∈ coinNoData coin r := by
    simp only [zeroFreshMatches, Bool.or_eq_true, Bool.and_eq_true] at hz
    rcases hz with (((h | h) | h) | h) | h
    · simp [coinNoData, h]
    · simp [coinNoData, h]
    · simp [coinNoData, h]
    · simp [coinNoData, h]
    · obtain ⟨⟨⟨he, hn⟩, _⟩, hr⟩ := h
      simp [coinNoData, he, hn, hr]
  have h1 : coin ∈ nodataOf cfg :=
    List.mem_flatMap.mpr ⟨(coin, r), hmem, hc⟩
  refine ⟨h1, ?_⟩
  intro m hdel hin
  rcases List.mem_map.mp hin with ⟨p, hp, hfst⟩
  exact del_coins_removed (nodataOf cfg) cfg m coin h1 hdel p hp hfst

/-- Witness for C7 at a concrete map: coin `NOD` (empty electrum list) is
collected and is gone from the concrete deletion result. -/
theorem nodata_coin_excluded_witness :
    "NOD" ∈ nodataOf cfgNoData ∧
      "NOD" ∉ ([("OK", recOk)] : CoinsMap).map Prod.fst := by
  have h := nodata_coin_excluded cfgNoData "NOD" recNoData (by simp [cfgNoData]) (by decide)
  exact ⟨h.1, h.2 [("OK", recOk)] (by decide)⟩

end Coins

namespace Seed

/-- Claim C8: with the default RPC port 7783, `wss_port` at netid 0 returns
7813 (7783 + 30) and `tcp_port` at netid 0 returns 7803 (7783 + 20). -/
theorem ports_netid_zero :
    wss_port 0 7783 = some 7813 ∧ tcp_port 0 7783 = some 7803 := by decide

/-- Claim C10: with the default `lp_rpcport` 7783, for every netid in
`0 .. 14428` both port functions return normally and the WSS port exceeds
the TCP port by exactly 10; for every netid outside this range both raise
`ValueError` (modelled as `none`). -/
theorem ports_range_behaviour (n : Int) :
    (0 ≤ n ∧ n ≤ 14428 →
      wss_port n 7783 = some (other_ports n 7783 + 30) ∧
      tcp_port n 7783 = some (other_ports n 7783 + 20) ∧
      other_ports n 7783 + 30 = (other_ports n 7783 + 20) + 10) ∧
    (¬ (0 ≤ n ∧ n ≤ 14428) →
      wss_port n 7783 = none ∧ tcp_port n 7783 = none) := by
  have hmax : Int.fdiv (65535 - 40 - 7783) 4 = 14428 := by decide
  constructor
  · intro h
    refine ⟨?_, ?_, by ring⟩
    · simp only [wss_port, hmax]
      rw [if_pos h]
    · simp only [tcp_port, hmax]
      rw [if_pos h]
  · intro h
    constructor
    · simp only [wss_port, hmax]
      rw [if_neg h]
    · simp only [tcp_port, hmax]
      rw [if_neg h]

/-- Witness for C10 at netid 5: both ports are returned and differ by 10. -/
theorem ports_range_behaviour_witness :
    wss_port 5 7783 = some (other_ports 5 7783 + 30) ∧
    tcp_port 5 7783 = some (other_ports 5 7783 + 20) ∧
    other_ports 5 7783 + 30 = (other_ports 5 7783 + 20) + 10 :=
  (ports_range_behaviour 5).1 (by decide)

/-- Inserting into a sorted string list grows its length by one. -/
theorem insertStr_length (s : String) (l : List String) :
    (insertStr s l).length = l.length + 1 := by
  induction l with
  | nil => rfl
  | cons x xs ih =>
    simp only [insertStr]
    split
    · simp
    · simp [ih]

/-- Length of the insertion-sort fold. -/
theorem foldl_insertStr_length (l : List String) :
    ∀ acc : List String,
      (l.foldl (fun a s => insertStr s a) acc).length = acc.length + l.length := by
  induction l with
  | nil => intro acc; simp
  | cons x xs ih =>
    intro acc
    simp only [List.foldl_cons]
    rw [ih, insertStr_length]
    simp only [List.length_cons]
    omega

/-- Sorting a non-empty string list yields a non-empty list. -/
theorem sortStrings_ne_nil (l : List String) (h : l ≠ []) : sortStrings l ≠ [] := by
  intro hc
  have hl := foldl_insertStr_length l []
  rw [sortStrings] at hc
  rw [hc] at hl
  simp at hl
  exact h (List.length_eq_zero.mp hl.symm)

/-- A value occurring at least twice yields a non-empty sorted duplicate
set. -/
theorem dupSorted_ne_nil (l : List String) (s : String) (h : 2 ≤ l.count s) :
    dupSorted l ≠ [] := by
  have hmem : s ∈ l := List.count_pos_iff.mp (by omega)
  have hf : s ∈ l.filter (fun x => decide (2 ≤ l.count x)) :=
    List.mem_filter.mpr ⟨hmem, decide_eq_true h⟩
  have hd : s ∈ (l.filter (fun x => decide (2 ≤ l.count x))).dedup :=
    List.mem_dedup.mpr hf
  exact sortStrings_ne_nil _ (List.ne_nil_of_mem hd)

/-- Claim C9: if the registry holds two nodes sharing a (truthy) name, or
two nodes sharing a (truthy) host — i.e. some non-empty string value occurs
at least twice among the respective fields — then `check_duplicates` reports
a non-empty error list, and the post-schema logic of `validate_seed_nodes`
returns `False` whatever the WSS and TCP connectivity probes would have
answered, so the run exits with code 1 before any probe is consulted. -/
theorem duplicate_nodes_fail_before_probes (nodes : List SeedNode) (s : String)
    (h : 2 ≤ (truthyVals (fun n => n.name) nodes).count s ∨
         2 ≤ (truthyVals (fun n => n.host) nodes).count s) :
    check_duplicates nodes ≠ [] ∧
      ∀ wssProbe tcpProbe : List SeedNode → Bool,
        validate_seed_nodes_after_schema nodes wssProbe tcpProbe = false := by
  have hne : check_duplicates nodes ≠ [] := by
    intro hc
    rw [check_duplicates] at hc
    rcases List.append_eq_nil.mp hc with ⟨h1, h2⟩
    rcases h with h | h
    · have hd := dupSorted_ne_nil _ s h
      revert h1
      split
      · next hemp => exact fun _ => hd (List.isEmpty_iff.mp hemp)
      · intro h1; cases h1
    · have hd := dupSorted_ne_nil _ s h
      revert h2
      split
      · next hemp => exact fun _ => hd (List.isEmpty_iff.mp hemp)
      · intro h2; cases h2
  refine ⟨hne, fun wssProbe tcpProbe => ?_⟩
  rw [validate_seed_nodes_after_schema]
  have hfalse : (check_duplicates nodes).isEmpty = false := by
    cases hl : check_duplicates nodes with
    | nil => exact absurd hl hne
    | cons a as => rfl
  rw [hfalse]
  rfl

/-- Witness for C9: a registry with two nodes both named `alpha` fails
validation even under always-successful connectivity oracles. -/
theorem duplicate_nodes_fail_before_probes_witness :
    check_duplicates dupNodes ≠ [] ∧
      validate_seed_nodes_after_schema dupNodes probeTrue probeTrue = false := by
  have h := duplicate_nodes_fail_before_probes dupNodes "alpha" (Or.inl (by decide))
  exact ⟨h.1, h.2 probeTrue probeTrue⟩

end Seed
